import Mathlib

/-!
# Verification of the `automated_reporting` analysis core

Shallow embedding of the statistical analysis pipeline
(`src/analyzer.py`, `src/file_reader.py`) of the
`sabari-official/automated_reporting` repository, together with proofs
settling the specification claims about it.

Modelling conventions:
* Python floats are modelled as exact rationals (`ℚ`); the spec treats the
  numeric library as a correct external primitive, so float rounding error
  is out of scope.  Python's `round(x, n)` (banker's rounding, half to
  even) is modelled by `pyRound`.
* pandas `Series`/`DataFrame` columns are Lean lists; a nullable cell is an
  `Option`.
* Pearson correlation needs a real square root, so correlation values live
  in `ℝ`; everything else is computable.
-/

namespace AutoReport

/-! ## Rounding

Python's builtin `round` rounds half to even.  `pyRound n x` is
`round(x, n)` on exact rationals. -/

/-- Round a rational to the nearest integer, halves to even
(Python `round` semantics). -/
def roundHalfEven (x : ℚ) : ℤ :=
  let f : ℤ := ⌊x⌋
  let r : ℚ := x - f
  if r < 1/2 then f
  else if 1/2 < r then f + 1
  else if Even f then f else f + 1

/-- Python's `round(x, ndigits)` on exact rationals. -/
def pyRound (ndigits : ℕ) (x : ℚ) : ℚ :=
  (roundHalfEven (x * 10 ^ ndigits) : ℚ) / 10 ^ ndigits

theorem roundHalfEven_intCast (z : ℤ) : roundHalfEven (z : ℚ) = z := by
  simp [roundHalfEven]

theorem pyRound_intCast (n : ℕ) (z : ℤ) : pyRound n ((z : ℚ)) = z := by
  have h : ((z : ℚ)) * 10 ^ n = ((z * 10 ^ n : ℤ) : ℚ) := by push_cast; ring
  have h10 : ((10 : ℚ) ^ n) ≠ 0 := by positivity
  rw [pyRound, h, roundHalfEven_intCast]
  push_cast
  field_simp

/-! ## Quantiles (pandas linear interpolation)

`Series.quantile(q)` with the default `interpolation="linear"`:
on the sorted non-null values `s` of length `n`, the position is
`pos = q·(n−1)`; with `i = ⌊pos⌋` and `frac = pos − i` the result is
`s[i] + frac·(s[i+1] − s[i])`. -/

/-- Sort a list of rationals ascending (stable; order of duplicates is
irrelevant for values). -/
def sortVals (l : List ℚ) : List ℚ :=
  l.insertionSort (· ≤ ·)

/-- Linear-interpolation quantile on an already sorted list. -/
def quantileSorted (s : List ℚ) (q : ℚ) : ℚ :=
  if s.length = 0 then 0
  else
    let pos : ℚ := q * ((s.length : ℚ) - 1)
    let i : ℕ := (⌊pos⌋).toNat
    let frac : ℚ := pos - (⌊pos⌋ : ℚ)
    let lo := s.getD i 0
    let hi := s.getD (i + 1) lo
    lo + frac * (hi - lo)

/-- `Series.quantile` of a column of non-null values. -/
def quantile (l : List ℚ) (q : ℚ) : ℚ :=
  quantileSorted (sortVals l) q

/-- `Series.mean` (sum over count; only used on nonempty columns). -/
def seriesMean (l : List ℚ) : ℚ := l.sum / l.length

/-- `Series.median` = 0.5-quantile. -/
def seriesMedian (l : List ℚ) : ℚ := quantile l (1/2)

/-! ## Outlier detection, `_analyze_df` lines 111–115

```python
lo, hi = q1 - 1.5 * iqr, q3 + 1.5 * iqr
out_mask = (s < lo) | (s > hi)
numeric[col]["outlier_count"] = int(out_mask.sum())
numeric[col]["outlier_pct"]   = round(float(out_mask.sum()) / len(s) * 100, 2)
```
with `q1, q3 = s.quantile(0.25), s.quantile(0.75)` and `iqr = q3 - q1`. -/

structure OutlierReport where
  low : ℚ
  high : ℚ
  count : ℕ
  pct : ℚ
deriving DecidableEq

/-- Outlier fields of the numeric profile of a column whose non-null
values are `l`. -/
def outlierReport (l : List ℚ) : OutlierReport :=
  let q1 := quantile l (1/4)
  let q3 := quantile l (3/4)
  let iqr := q3 - q1
  let lo := q1 - 3/2 * iqr
  let hi := q3 + 3/2 * iqr
  let cnt := (l.filter (fun x => decide (x < lo ∨ hi < x))).length
  { low := lo, high := hi, count := cnt,
    pct := pyRound 2 ((cnt : ℚ) / (l.length : ℚ) * 100) }

/-- Evaluation rule for `quantileSorted` once the floor of the interpolation
position is known. -/
theorem quantileSorted_eval (s : List ℚ) (q lo hi : ℚ) (k : ℕ)
    (h0 : s.length ≠ 0)
    (hf : ⌊q * ((s.length : ℚ) - 1)⌋ = (k : ℤ))
    (hlo : s.getD k 0 = lo)
    (hhi : s.getD (k + 1) lo = hi) :
    quantileSorted s q = lo + (q * ((s.length : ℚ) - 1) - (k : ℚ)) * (hi - lo) := by
  simp only [quantileSorted, if_neg h0, hf, Int.toNat_natCast, Int.cast_natCast, hlo, hhi]

theorem quantile_q1_example : quantile [1, 2, 3, 4, 100] (1/4) = 2 := by
  have hs : sortVals [1, 2, 3, 4, 100] = [1, 2, 3, 4, 100] := rfl
  rw [quantile, hs, quantileSorted_eval [1, 2, 3, 4, 100] (1/4) 2 3 1 (by norm_num) (by norm_num) rfl rfl]
  norm_num

theorem quantile_q3_example : quantile [1, 2, 3, 4, 100] (3/4) = 4 := by
  have hs : sortVals [1, 2, 3, 4, 100] = [1, 2, 3, 4, 100] := rfl
  rw [quantile, hs, quantileSorted_eval [1, 2, 3, 4, 100] (3/4) 4 100 3 (by norm_num) (by norm_num) rfl rfl]
  norm_num

theorem median_example : seriesMedian [1, 2, 3, 4, 100] = 3 := by
  have hs : sortVals [1, 2, 3, 4, 100] = [1, 2, 3, 4, 100] := rfl
  rw [seriesMedian, quantile, hs,
    quantileSorted_eval [1, 2, 3, 4, 100] (1/2) 3 4 2 (by norm_num) (by norm_num) rfl rfl]
  norm_num

theorem outlierReport_example : outlierReport [1, 2, 3, 4, 100] =
    { low := -1, high := 7, count := 1, pct := 20 } := by
  rw [outlierReport, quantile_q1_example, quantile_q3_example]
  norm_num [List.filter_cons, pyRound, roundHalfEven]

theorem quantile_q1_six : quantile [1, 1, 1, 1, 1, 100] (1/4) = 1 := by
  have hs : sortVals [1, 1, 1, 1, 1, 100] = [1, 1, 1, 1, 1, 100] := rfl
  rw [quantile, hs,
    quantileSorted_eval [1, 1, 1, 1, 1, 100] (1/4) 1 1 1 (by norm_num) (by norm_num) rfl rfl]
  norm_num

theorem quantile_q3_six : quantile [1, 1, 1, 1, 1, 100] (3/4) = 1 := by
  have hs : sortVals [1, 1, 1, 1, 1, 100] = [1, 1, 1, 1, 1, 100] := rfl
  rw [quantile, hs,
    quantileSorted_eval [1, 1, 1, 1, 1, 100] (3/4) 1 1 3 (by norm_num) (by norm_num) rfl rfl]
  norm_num

theorem outlierReport_six : outlierReport [1, 1, 1, 1, 1, 100] =
    { low := 1, high := 1, count := 1, pct := 1667/100 } := by
  rw [outlierReport, quantile_q1_six, quantile_q3_six]
  norm_num [List.filter_cons, pyRound, roundHalfEven]

/-- **C1** (counterexample to the claim as stated).  The claim asserts
`outlier_pct` equals `count / non-null-count × 100` exactly, but the code
reports `round(count / len(s) * 100, 2)`.  For the column
`[1,1,1,1,1,100]` there is exactly one outlier among 6 values, so the
exact percentage is `100/6 = 16.666…`, while the code reports `16.67`. -/
theorem c1_outlier_pct_counterexample :
    (outlierReport [1, 1, 1, 1, 1, 100]).count = 1 ∧
    ([1, 1, 1, 1, 1, 100] : List ℚ).length = 6 ∧
    (outlierReport [1, 1, 1, 1, 1, 100]).pct = 1667/100 ∧
    ((1 : ℚ) / 6) * 100 ≠ 1667/100 := by
  rw [outlierReport_six]
  refine ⟨rfl, rfl, rfl, by norm_num⟩

/-- **C1** (amended).  For every numeric column profiled (its non-null
values `l`, nonempty), the outlier bounds are exactly
`low = Q1 − 1.5·IQR` and `high = Q3 + 1.5·IQR` with `Q1`, `Q3` the
linear-interpolation quantiles, `outlier_count` is the exact number of
values strictly outside the fences, and `outlier_pct` is that count
divided by the non-null count times 100 **rounded to 2 decimals** (the
only amendment: the code's `round(..., 2)`).  In particular the column
`[1,2,3,4,100]` yields mean 22, median 3, Q1 2, Q3 4, IQR 2, low −1,
high 7, outlier_count 1 and outlier_pct 20. -/
theorem c1_outlier_fences :
    (∀ l : List ℚ, l ≠ [] →
      (outlierReport l).low =
        quantile l (1/4) - 3/2 * (quantile l (3/4) - quantile l (1/4)) ∧
      (outlierReport l).high =
        quantile l (3/4) + 3/2 * (quantile l (3/4) - quantile l (1/4)) ∧
      (outlierReport l).count =
        l.countP (fun x =>
          decide (x < (outlierReport l).low ∨ (outlierReport l).high < x)) ∧
      (outlierReport l).pct =
        pyRound 2 (((outlierReport l).count : ℚ) / (l.length : ℚ) * 100)) ∧
    seriesMean [1, 2, 3, 4, 100] = 22 ∧
    seriesMedian [1, 2, 3, 4, 100] = 3 ∧
    quantile [1, 2, 3, 4, 100] (1/4) = 2 ∧
    quantile [1, 2, 3, 4, 100] (3/4) = 4 ∧
    quantile [1, 2, 3, 4, 100] (3/4) - quantile [1, 2, 3, 4, 100] (1/4) = 2 ∧
    outlierReport [1, 2, 3, 4, 100] = { low := -1, high := 7, count := 1, pct := 20 } := by
  refine ⟨fun l _ => ?_, ?_, median_example, quantile_q1_example, quantile_q3_example,
    ?_, outlierReport_example⟩
  · refine ⟨rfl, rfl, ?_, rfl⟩
    simp only [outlierReport, List.countP_eq_length_filter]
  · norm_num [seriesMean]
  · rw [quantile_q1_example, quantile_q3_example]; norm_num

/-- **C1** witness: the amended theorem applied to the concrete column
`[1,2,3,4,100]`. -/
theorem c1_outlier_fences_witness :
    (outlierReport [1, 2, 3, 4, 100]).count =
      ([1, 2, 3, 4, 100] : List ℚ).countP (fun x =>
        decide (x < (outlierReport [1, 2, 3, 4, 100]).low ∨
          (outlierReport [1, 2, 3, 4, 100]).high < x)) :=
  (c1_outlier_fences.1 [1, 2, 3, 4, 100] (by simp)).2.2.1

/-! ## Table normalisation: `_clean_df` from `src/file_reader.py`

```python
def _clean_df(df):
    df.columns = [str(c).strip() for c in df.columns]
    df = df.dropna(how="all").dropna(axis=1, how="all")
    for col in df.columns:
        try:
            df[col] = pd.to_numeric(df[col])
        except (ValueError, TypeError):
            pass
    return df.reset_index(drop=True)
```

A raw table is a rectangular grid of nullable cells with stringified
column names (modelled as `List Char`; `str(c)` already happened) and an
integer row index.  Columns are positional; cells are numbers or
strings. -/

inductive Val where
  | num (q : ℚ)
  | str (s : List Char)
deriving DecidableEq

/-- A nullable cell: `none` is `NaN`/`None`. -/
abbrev Cell := Option Val

structure RawTable where
  names : List (List Char)
  index : List ℕ
  rows : List (List Cell)
deriving DecidableEq

/-- A pandas `DataFrame` is rectangular with one index label per row;
every table handed to `_clean_df` satisfies this. -/
def Rect (t : RawTable) : Prop :=
  (∀ r ∈ t.rows, r.length = t.names.length) ∧ t.index.length = t.rows.length

def isSpace (c : Char) : Bool :=
  c == ' ' || c == '\t' || c == '\n' || c == '\r'

/-- Python `str.strip()`: drop whitespace at both ends. -/
def trimStr (s : List Char) : List Char :=
  ((s.dropWhile isSpace).reverse.dropWhile isSpace).reverse

/-- `df.columns = [str(c).strip() for c in df.columns]`. -/
def trimNames (t : RawTable) : RawTable :=
  { names := t.names.map trimStr, index := t.index, rows := t.rows }

def cellIsNull (c : Cell) : Bool := c.isNone

def rowIsNull (r : List Cell) : Bool := r.all cellIsNull

/-- `df.dropna(how="all")`: drop rows whose cells are all null; pandas
keeps the index labels of the surviving rows. -/
def dropNullRows (t : RawTable) : RawTable :=
  { names := t.names,
    index := ((t.index.zip t.rows).filter fun p => ! rowIsNull p.2).map Prod.fst,
    rows := ((t.index.zip t.rows).filter fun p => ! rowIsNull p.2).map Prod.snd }

/-- Cell of row `r` at column position `j` (out of range ⇒ null). -/
def cellAt (r : List Cell) (j : ℕ) : Cell := r.getD j none

def colIsNull (rows : List (List Cell)) (j : ℕ) : Bool :=
  rows.all fun r => cellIsNull (cellAt r j)

/-- Column positions surviving `dropna(axis=1, how="all")`. -/
def keepCols (t : RawTable) : List ℕ :=
  (List.range t.names.length).filter fun j => ! colIsNull t.rows j

/-- `df.dropna(axis=1, how="all")` (evaluated after the row drop). -/
def dropNullCols (t : RawTable) : RawTable :=
  { names := (keepCols t).map fun j => t.names.getD j [],
    index := t.index,
    rows := t.rows.map fun r => (keepCols t).map fun j => cellAt r j }

def digitsVal (ds : List Char) : ℕ :=
  ds.foldl (fun n c => 10 * n + (c.toNat - 48)) 0

/-- The exponent part after `e`/`E`: an optionally signed digit string. -/
def parseExp (cs : List Char) : Option ℤ :=
  match cs with
  | '-' :: rest =>
      if !rest.isEmpty && rest.all Char.isDigit then some (-(digitsVal rest : ℤ))
      else none
  | '+' :: rest =>
      if !rest.isEmpty && rest.all Char.isDigit then some ((digitsVal rest : ℤ))
      else none
  | _ =>
      if !cs.isEmpty && cs.all Char.isDigit then some ((digitsVal cs : ℤ))
      else none

/-- Unsigned part of the numeric-literal grammar accepted by
`pd.to_numeric`'s C parser (`strtod`-style): digits with an optional
single decimal point, then an optional `e`/`E` exponent. -/
def parseUnsigned (cs : List Char) : Option ℚ :=
  let intPart := cs.takeWhile Char.isDigit
  match cs.dropWhile Char.isDigit with
  | [] => if intPart.isEmpty then none else some ((digitsVal intPart : ℚ))
  | '.' :: rest2 =>
      let frac := rest2.takeWhile Char.isDigit
      if intPart.isEmpty && frac.isEmpty then none
      else
        let m : ℚ := (digitsVal intPart : ℚ) + (digitsVal frac : ℚ) / 10 ^ frac.length
        (match rest2.dropWhile Char.isDigit with
         | [] => some m
         | 'e' :: ecs => (parseExp ecs).map fun e => m * 10 ^ e
         | 'E' :: ecs => (parseExp ecs).map fun e => m * 10 ^ e
         | _ => none)
  | 'e' :: ecs =>
      if intPart.isEmpty then none
      else (parseExp ecs).map fun e => (digitsVal intPart : ℚ) * 10 ^ e
  | 'E' :: ecs =>
      if intPart.isEmpty then none
      else (parseExp ecs).map fun e => (digitsVal intPart : ℚ) * 10 ^ e
  | _ => none

/-- `pd.to_numeric` scalar grammar: optional sign, then digits with an
optional decimal point and optional exponent.  The one `strtod` form not
representable here is the infinity spellings (`inf`, `infinity`), whose
value lies outside the exact rational domain this model uses for floats
(IEEE specials are out of the spec's scope); such a cell is treated as a
conversion failure, which is null-preserving either way, so no claim
hinges on it. -/
def parseNum (s : List Char) : Option ℚ :=
  match s with
  | '-' :: rest => (parseUnsigned rest).map fun q => -q
  | '+' :: rest => parseUnsigned rest
  | _ => parseUnsigned s

/-- Strings `pd.to_numeric` silently coerces to NaN rather than raising
on: the empty string (`maybe_convert_numeric` runs with
`convert_empty=True`) and the `strtod` NaN spellings (optionally signed,
case-insensitive `nan`). -/
def isNaNString (s : List Char) : Bool :=
  let body := match s with
    | '+' :: rest => rest
    | '-' :: rest => rest
    | _ => s
  s.isEmpty || body.map Char.toLower == ['n', 'a', 'n']

/-- `pd.to_numeric` on one cell: nulls pass through as null; numbers pass
through; the empty string and NaN spellings coerce to NaN **without
raising**; any other string must parse, else the whole column's
conversion raises and the column is left unchanged. -/
def parseCell (c : Cell) : Option Cell :=
  match c with
  | none => some none
  | some (.num q) => some (some (.num q))
  | some (.str s) =>
      if isNaNString s then some none
      else (parseNum s).map fun q => some (.num q)

def colConvertible (rows : List (List Cell)) (j : ℕ) : Bool :=
  rows.all fun r => (parseCell (cellAt r j)).isSome

def convCell (c : Cell) : Cell := (parseCell c).getD c

/-- The per-column `try: df[col] = pd.to_numeric(df[col]) except: pass`
loop: a column is converted iff every cell coerces. -/
def toNumericCols (t : RawTable) : RawTable :=
  { names := t.names, index := t.index,
    rows := t.rows.map fun r =>
      (List.range t.names.length).map fun j =>
        if colConvertible t.rows j then convCell (cellAt r j) else cellAt r j }

/-- `df.reset_index(drop=True)`: relabel rows `0..n-1`. -/
def resetIndex (t : RawTable) : RawTable :=
  { names := t.names, index := List.range t.rows.length, rows := t.rows }

/-- `_clean_df` (`src/file_reader.py` lines 148–158). -/
def clean_df (t : RawTable) : RawTable :=
  resetIndex (toNumericCols (dropNullCols (dropNullRows (trimNames t))))

/-! ### Idempotence of `_clean_df` (claim C2)

`clean_df` output is characterised by `IsClean`; a clean table is a fixed
point of `clean_df`. -/

theorem dropWhile_eq_self_of_head {α : Type} (p : α → Bool) (l : List α)
    (h : ∀ x, l.head? = some x → p x = false) : l.dropWhile p = l := by
  cases l with
  | nil => rfl
  | cons a l => rw [List.dropWhile_cons, if_neg (by simp [h a rfl])]

theorem dropWhile_idem {α : Type} (p : α → Bool) (l : List α) :
    (l.dropWhile p).dropWhile p = l.dropWhile p := by
  apply dropWhile_eq_self_of_head
  intro x hx
  have h := List.head?_dropWhile_not p l
  rw [hx] at h
  exact h

theorem head?_trimStr_not (s : List Char) :
    ∀ x, (trimStr s).head? = some x → isSpace x = false := by
  intro x hx
  rw [trimStr, List.head?_reverse] at hx
  obtain ⟨t, ht⟩ := List.dropWhile_suffix (l := (s.dropWhile isSpace).reverse) isSpace
  have h3 : (s.dropWhile isSpace).reverse.getLast? = some x := by
    rw [← ht, List.getLast?_append, hx]
    rfl
  rw [List.getLast?_reverse] at h3
  have h := List.head?_dropWhile_not isSpace s
  rw [h3] at h
  exact h

theorem trimStr_idem (s : List Char) : trimStr (trimStr s) = trimStr s := by
  have h1 : (trimStr s).dropWhile isSpace = trimStr s :=
    dropWhile_eq_self_of_head _ _ (head?_trimStr_not s)
  show ((((trimStr s).dropWhile isSpace).reverse).dropWhile isSpace).reverse = trimStr s
  rw [h1, trimStr, List.reverse_reverse, dropWhile_idem]

/-- Reassembling a list from positional defaults. -/
theorem map_getD_range {α : Type} (l : List α) (d : α) :
    (List.range l.length).map (fun j => l.getD j d) = l := by
  induction l with
  | nil => rfl
  | cons a l ih =>
    rw [List.length_cons, List.range_succ_eq_map, List.map_cons, List.map_map]
    have hc : ((fun j => (a :: l).getD j d) ∘ Nat.succ) = fun j => l.getD j d := by
      funext j
      simp [List.getD_cons_succ]
    rw [hc, ih]
    simp

theorem cellAt_map_range (g : ℕ → Cell) (n j : ℕ) (h : j < n) :
    cellAt ((List.range n).map g) j = g j := by
  rw [cellAt, List.getD_eq_getElem _ _ (by simpa using h), List.getElem_map,
    List.getElem_range]

theorem cellAt_map_of_lt (f : ℕ → Cell) (l : List ℕ) (p : ℕ) (h : p < l.length) :
    cellAt ((l.map f) ) p = f (l[p]) := by
  rw [cellAt, List.getD_eq_getElem _ _ (by simpa using h), List.getElem_map]

theorem cellAt_of_len_le (r : List Cell) (j : ℕ) (h : r.length ≤ j) :
    cellAt r j = none := by
  rw [cellAt, List.getD_eq_default _ _ (by simpa using h)]

theorem convCell_idem (c : Cell) : convCell (convCell c) = convCell c := by
  match c with
  | none => rfl
  | some (.num q) => rfl
  | some (.str s) =>
    cases hn : isNaNString s
    · cases hp : parseNum s <;> simp [convCell, parseCell, hn, hp]
    · simp [convCell, parseCell, hn]

/-- Numeric conversion keeps every cell's nullity: no cell is an empty
string or NaN spelling that `pd.to_numeric` would silently coerce to a
new null.  This is the extra condition idempotence needs (claim C2). -/
def NumericCoercionKeepsNulls (t : RawTable) : Prop :=
  ∀ r ∈ t.rows, ∀ c ∈ r, cellIsNull (convCell c) = cellIsNull c

/-- What it means for a table to already be in normal form. -/
structure IsClean (t : RawTable) : Prop where
  trimmed : t.names.map trimStr = t.names
  noNullRow : ∀ r ∈ t.rows, rowIsNull r = false
  noNullCol : ∀ j, j < t.names.length → colIsNull t.rows j = false
  convStable : ∀ j, colConvertible t.rows j = true →
    ∀ r ∈ t.rows, convCell (cellAt r j) = cellAt r j
  rect : ∀ r ∈ t.rows, r.length = t.names.length
  idx : t.index = List.range t.rows.length

theorem dropNullRows_of_noNull (t : RawTable)
    (hlen : t.index.length = t.rows.length)
    (h : ∀ r ∈ t.rows, rowIsNull r = false) : dropNullRows t = t := by
  have hfil : (t.index.zip t.rows).filter (fun p => ! rowIsNull p.2)
      = t.index.zip t.rows := by
    rw [List.filter_eq_self]
    intro a ha
    rw [h _ (List.of_mem_zip ha).2]
    rfl
  rw [dropNullRows]
  rw [hfil, List.map_fst_zip _ _ (le_of_eq hlen),
    List.map_snd_zip _ _ (le_of_eq hlen.symm)]

theorem keepCols_eq_range (t : RawTable)
    (h : ∀ j, j < t.names.length → colIsNull t.rows j = false) :
    keepCols t = List.range t.names.length := by
  rw [keepCols, List.filter_eq_self]
  intro j hj
  rw [h j (List.mem_range.1 hj)]
  rfl

/-- A clean table is a fixed point of `_clean_df`. -/
theorem clean_df_of_isClean (t : RawTable) (h : IsClean t) : clean_df t = t := by
  have h1 : trimNames t = t := by rw [trimNames, h.trimmed]
  have hlen : t.index.length = t.rows.length := by rw [h.idx, List.length_range]
  have h2 : dropNullRows t = t := dropNullRows_of_noNull t hlen h.noNullRow
  have h3 : dropNullCols t = t := by
    rw [dropNullCols, keepCols_eq_range t h.noNullCol]
    have hr : ∀ r ∈ t.rows,
        (List.range t.names.length).map (fun j => cellAt r j) = r := by
      intro r hr
      rw [← h.rect r hr]
      exact map_getD_range r none
    rw [List.map_congr_left hr, map_getD_range t.names []]
    simp
  have h4 : toNumericCols t = t := by
    rw [toNumericCols]
    have hr : ∀ r ∈ t.rows,
        ((List.range t.names.length).map fun j =>
          if colConvertible t.rows j then convCell (cellAt r j) else cellAt r j) = r := by
      intro r hr
      have hfun : ∀ j ∈ List.range t.names.length,
          (if colConvertible t.rows j then convCell (cellAt r j) else cellAt r j)
            = cellAt r j := by
        intro j _
        split
        · exact h.convStable j (by assumption) r hr
        · rfl
      rw [List.map_congr_left hfun, ← h.rect r hr]
      exact map_getD_range r none
    rw [List.map_congr_left hr]
    simp
  have h5 : resetIndex t = t := by
    rw [resetIndex, ← h.idx]
  rw [clean_df, h1, h2, h3, h4, h5]

/-- `_clean_df` always produces a clean table (on genuinely rectangular
input, which every pandas `DataFrame` is). -/
theorem isClean_clean_df (t : RawTable) (ht : Rect t)
    (hkn : NumericCoercionKeepsNulls t) : IsClean (clean_df t) := by
  obtain ⟨hrect, _⟩ := ht
  set t2 := dropNullRows (trimNames t) with ht2
  set t3 := dropNullCols t2 with ht3
  set t4 := toNumericCols t3 with ht4
  have hcd : clean_df t = resetIndex t4 := rfl
  rw [hcd]
  -- structural bookkeeping
  have hn2 : t2.names = t.names.map trimStr := rfl
  have hrows2 : ∀ r ∈ t2.rows, r ∈ t.rows ∧ rowIsNull r = false := by
    intro r hr
    rw [ht2, dropNullRows] at hr
    obtain ⟨p, hp, rfl⟩ := List.mem_map.1 hr
    have hf := List.mem_filter.1 hp
    exact ⟨(List.of_mem_zip hf.1).2, by simpa using hf.2⟩
  have hrect2 : ∀ r ∈ t2.rows, r.length = t2.names.length := by
    intro r hr
    rw [hn2, List.length_map]
    exact hrect r (hrows2 r hr).1
  have hpres : ∀ r ∈ t.rows, ∀ j,
      cellIsNull (convCell (cellAt r j)) = cellIsNull (cellAt r j) := by
    intro r hr j
    by_cases hj : j < r.length
    · have hmem : cellAt r j ∈ r := by
        rw [cellAt, List.getD_eq_getElem _ _ hj]
        exact List.getElem_mem _
      exact hkn r hr _ hmem
    · rw [cellAt_of_len_le r j (Nat.not_lt.1 hj)]
      rfl
  have hkeep : ∀ j ∈ keepCols t2, j < t2.names.length ∧ colIsNull t2.rows j = false := by
    intro j hj
    have hf := List.mem_filter.1 hj
    exact ⟨List.mem_range.1 hf.1, by simpa using hf.2⟩
  have hn3 : t3.names = (keepCols t2).map fun j => t2.names.getD j [] := rfl
  have hr3 : t3.rows = t2.rows.map fun r => (keepCols t2).map fun j => cellAt r j := rfl
  have hlen3 : t3.names.length = (keepCols t2).length := by rw [hn3, List.length_map]
  have hr4 : t4.rows = t3.rows.map fun r =>
      (List.range t3.names.length).map fun j =>
        if colConvertible t3.rows j then convCell (cellAt r j) else cellAt r j := rfl
  -- field 1: names are trim-fixed
  have htrimmed : ∀ x ∈ t3.names, trimStr x = x := by
    intro x hx
    rw [hn3] at hx
    obtain ⟨j, hj, rfl⟩ := List.mem_map.1 hx
    have hjlt := (hkeep j hj).1
    have hmem : t2.names.getD j [] ∈ t2.names := by
      rw [List.getD_eq_getElem _ _ hjlt]
      exact List.getElem_mem _
    rw [hn2] at hmem
    obtain ⟨y, _, hy⟩ := List.mem_map.1 hmem
    rw [hn2, ← hy, trimStr_idem]
  -- field 2: no all-null row survives
  have hnorow : ∀ r ∈ t4.rows, rowIsNull r = false := by
    intro r4 hr4m
    rw [hr4] at hr4m
    obtain ⟨r3, hr3m, rfl⟩ := List.mem_map.1 hr4m
    rw [hr3] at hr3m
    obtain ⟨r2, hr2m, rfl⟩ := List.mem_map.1 hr3m
    obtain ⟨c, hcm, hcf⟩ := List.all_eq_false.1 (hrows2 r2 hr2m).2
    obtain ⟨j, hjlt, hjc⟩ := List.mem_iff_getElem.1 hcm
    have hca : cellAt r2 j = c := by
      rw [cellAt, List.getD_eq_getElem _ _ hjlt, hjc]
    have hjlt2 : j < t2.names.length := by rw [← hrect2 r2 hr2m]; exact hjlt
    have hcol : colIsNull t2.rows j = false :=
      List.all_eq_false.2 ⟨r2, hr2m, by rw [hca]; exact hcf⟩
    have hjkeep : j ∈ keepCols t2 :=
      List.mem_filter.2 ⟨List.mem_range.2 hjlt2, by simp [hcol]⟩
    obtain ⟨p, hplt, hpj⟩ := List.mem_iff_getElem.1 hjkeep
    have hplen : p < t3.names.length := by rw [hlen3]; exact hplt
    have hc3 : cellAt ((keepCols t2).map fun j => cellAt r2 j) p = cellAt r2 j := by
      rw [cellAt_map_of_lt _ _ p hplt, hpj]
    refine List.all_eq_false.2 ⟨_, List.mem_map.2 ⟨p, List.mem_range.2 hplen, rfl⟩, ?_⟩
    split
    · rw [hc3, hpres r2 (hrows2 r2 hr2m).1 j, hca]
      exact hcf
    · rw [hc3, hca]
      exact hcf
  -- field 3: no all-null column survives
  have hnocol : ∀ j, j < t3.names.length → colIsNull t4.rows j = false := by
    intro p hp
    have hplt : p < (keepCols t2).length := by rw [← hlen3]; exact hp
    have hjkeep : (keepCols t2)[p] ∈ keepCols t2 := List.getElem_mem _
    obtain ⟨r2, hr2m, hr2c⟩ := List.all_eq_false.1 (hkeep _ hjkeep).2
    have hc3 : cellAt ((keepCols t2).map fun j => cellAt r2 j) p
        = cellAt r2 ((keepCols t2)[p]) := by
      rw [cellAt_map_of_lt _ _ p hplt]
    refine List.all_eq_false.2
      ⟨(List.range t3.names.length).map fun j =>
          if colConvertible t3.rows j then
            convCell (cellAt ((keepCols t2).map fun i => cellAt r2 i) j)
          else cellAt ((keepCols t2).map fun i => cellAt r2 i) j, ?_, ?_⟩
    · rw [hr4]
      refine List.mem_map.2 ⟨(keepCols t2).map fun i => cellAt r2 i, ?_, rfl⟩
      rw [hr3]
      exact List.mem_map.2 ⟨r2, hr2m, rfl⟩
    · rw [cellAt_map_range _ _ _ hp]
      split
      · rw [hc3, hpres r2 (hrows2 r2 hr2m).1 ((keepCols t2)[p])]
        exact hr2c
      · rw [hc3]
        exact hr2c
  -- field 4: numeric conversion is stable
  have hconvstable : ∀ j, colConvertible t4.rows j = true →
      ∀ r ∈ t4.rows, convCell (cellAt r j) = cellAt r j := by
    intro j hconv r4 hr4m
    rw [hr4] at hr4m
    obtain ⟨r3, hr3m, rfl⟩ := List.mem_map.1 hr4m
    by_cases hj : j < t3.names.length
    · by_cases hc : colConvertible t3.rows j = true
      · rw [cellAt_map_range _ _ _ hj, if_pos hc]
        exact convCell_idem _
      · exfalso
        have hc' : colConvertible t3.rows j = false := by
          simpa using hc
        obtain ⟨r3', hr3'm, hr3'p⟩ := List.all_eq_false.1 hc'
        have hfalse : colConvertible t4.rows j = false := by
          refine List.all_eq_false.2
            ⟨(List.range t3.names.length).map fun i =>
                if colConvertible t3.rows i then convCell (cellAt r3' i)
                else cellAt r3' i, ?_, ?_⟩
          · rw [hr4]
            exact List.mem_map.2 ⟨r3', hr3'm, rfl⟩
          · rw [cellAt_map_range _ _ _ hj, if_neg hc]
            exact hr3'p
        rw [hconv] at hfalse
        simp at hfalse
    · have hlen : ((List.range t3.names.length).map fun j =>
          if colConvertible t3.rows j then convCell (cellAt r3 j) else cellAt r3 j).length ≤ j := by
        rw [List.length_map, List.length_range]
        exact Nat.not_lt.1 hj
      rw [cellAt_of_len_le _ _ hlen]
      rfl
  -- assemble
  refine ⟨?_, hnorow, hnocol, hconvstable, ?_, rfl⟩
  · show t3.names.map trimStr = t3.names
    rw [List.map_congr_left htrimmed, List.map_id']
  · show ∀ r ∈ t4.rows, r.length = t3.names.length
    intro r hr
    rw [hr4] at hr
    obtain ⟨r3, _, rfl⟩ := List.mem_map.1 hr
    rw [List.length_map, List.length_range]

/-- **C2** (counterexample to the claim as stated).  Normalisation is
*not* idempotent on the program: `pd.to_numeric` silently coerces the
empty string to NaN, so on the single-column table `['', '1']` the first
pass (whose row-drop runs before conversion) produces `[NaN, 1.0]`,
creating an all-null row that only the second pass's
`dropna(how="all")` removes: `normalize(normalize(T))` has 1 row while
`normalize(T)` has 2. -/
def emptyStrTable : RawTable :=
  { names := [['a']], index := [0, 1],
    rows := [[some (.str [])], [some (.str ['1'])]] }

/-- **C2**: the counterexample table is rectangular (a real `DataFrame`),
one normalisation pass keeps both rows, the second drops the
conversion-nulled row, so `normalize ∘ normalize ≠ normalize` on it. -/
theorem c2_clean_df_not_idempotent :
    Rect emptyStrTable ∧
    (clean_df emptyStrTable).rows.length = 2 ∧
    (clean_df (clean_df emptyStrTable)).rows.length = 1 ∧
    clean_df (clean_df emptyStrTable) ≠ clean_df emptyStrTable := by
  refine ⟨⟨?_, rfl⟩, rfl, rfl, fun h => ?_⟩
  · intro r hr
    simp only [emptyStrTable, List.mem_cons, List.not_mem_nil, or_false] at hr
    rcases hr with rfl | rfl <;> rfl
  · have h2 := congrArg (fun u : RawTable => u.rows.length) h
    exact absurd h2 (by decide)

/-- **C2** (amended): table normalisation is idempotent for every
rectangular raw table on which numeric conversion coerces no non-null
cell to a null — i.e. no cell is an empty string or NaN spelling that
`pd.to_numeric` silently turns into NaN.  (`normalize` stringifies and
trims column names, drops fully-empty rows then fully-empty columns,
converts a column to numeric exactly when every value coerces, and
resets the row index; the counterexample shows the extra condition is
needed, because a conversion-created null can make a row or column
all-null that only a second pass would drop.) -/
theorem c2_clean_df_idempotent :
    ∀ t : RawTable, Rect t → NumericCoercionKeepsNulls t →
      clean_df (clean_df t) = clean_df t := fun t ht hkn =>
  clean_df_of_isClean _ (isClean_clean_df t ht hkn)

/-- **C2** witness: idempotence at a concrete messy table (one all-null
row, one all-null column, one numeric-coercible string column, one mixed
column, untrimmed names; no empty-string or NaN-spelling cells). -/
theorem c2_clean_df_idempotent_witness :
    clean_df (clean_df
      { names := [[' ', 'a'], ['b', ' '], ['c']],
        index := [0, 1, 2],
        rows := [[some (.str ['1']), none, some (.str ['x'])],
                 [none, none, none],
                 [some (.str ['2']), none, some (.num 5)]] }) =
    clean_df
      { names := [[' ', 'a'], ['b', ' '], ['c']],
        index := [0, 1, 2],
        rows := [[some (.str ['1']), none, some (.str ['x'])],
                 [none, none, none],
                 [some (.str ['2']), none, some (.num 5)]] } := by
  apply c2_clean_df_idempotent
  · constructor
    · intro r hr
      simp only [List.mem_cons, List.not_mem_nil, or_false] at hr
      rcases hr with rfl | rfl | rfl <;> rfl
    · rfl
  · intro r hr c hc
    simp only [List.mem_cons, List.not_mem_nil, or_false] at hr
    rcases hr with rfl | rfl | rfl <;>
      simp only [List.mem_cons, List.not_mem_nil, or_false] at hc <;>
        rcases hc with rfl | rfl | rfl <;> rfl

/-! ## Text analysis: `_analyze_text` from `src/analyzer.py`

```python
words     = re.findall(r"\b\w+\b", text.lower())
sentences = re.split(r"[.!?]+", text)
sentences = [s.strip() for s in sentences if s.strip()]
lines     = [l for l in text.splitlines() if l.strip()]
...
```
`\w` is modelled for ASCII text as alphanumeric-or-underscore; word
tokens are the maximal runs of word characters of the lowercased text. -/

def isWordChar (c : Char) : Bool := c.isAlphanum || c == '_'

/-- Maximal runs of word characters; `acc` is the current run, reversed. -/
def wordRunsAux : List Char → List Char → List (List Char)
  | [], acc => if acc.isEmpty then [] else [acc.reverse]
  | c :: rest, acc =>
    if isWordChar c then wordRunsAux rest (c :: acc)
    else if acc.isEmpty then wordRunsAux rest []
    else acc.reverse :: wordRunsAux rest []

/-- `re.findall(r"\b\w+\b", text.lower())`. -/
def findWords (text : List Char) : List (List Char) :=
  wordRunsAux (text.map Char.toLower) []

def isSentDelim (c : Char) : Bool := c == '.' || c == '!' || c == '?'

def isNewline (c : Char) : Bool := c == '\n' || c == '\r'

/-- Split at every delimiter character (runs of delimiters only create
empty fragments, which the callers discard, so this models
`re.split(r"[.!?]+", ·)` and `str.splitlines` faithfully after the
non-blank filter). -/
def splitFragsAux (d : Char → Bool) : List Char → List Char → List (List Char)
  | [], acc => [acc.reverse]
  | c :: rest, acc =>
    if d c then acc.reverse :: splitFragsAux d rest []
    else splitFragsAux d rest (c :: acc)

/-- `[s.strip() for s in re.split(r"[.!?]+", text) if s.strip()]`. -/
def sentencesOf (text : List Char) : List (List Char) :=
  ((splitFragsAux isSentDelim text []).map trimStr).filter fun s => !s.isEmpty

/-- `[l for l in text.splitlines() if l.strip()]`. -/
def linesOf (text : List Char) : List (List Char) :=
  (splitFragsAux isNewline text []).filter fun l => !(trimStr l).isEmpty

/-- The fixed stop-word set of `_analyze_text`. -/
def stopWords : List (List Char) :=
  ["the", "a", "an", "is", "are", "was", "were", "and", "or", "but", "in",
   "on", "at", "to", "for", "of", "with", "by", "from", "as", "this", "that",
   "it", "its", "be", "been", "being", "have", "has", "had", "do", "did", "i",
   "you", "he", "she", "we", "they", "not", "so", "if", "all", "can",
   "will"].map String.toList

/-- `word_freq[w] = word_freq.get(w, 0) + 1` on an insertion-ordered map. -/
def bumpFreq (m : List (List Char × ℕ)) (w : List Char) : List (List Char × ℕ) :=
  if m.any fun p => decide (p.1 = w) then
    m.map fun p => if p.1 = w then (p.1, p.2 + 1) else p
  else m ++ [(w, 1)]

/-- Frequency table over non-stop words of length > 2, in first-occurrence
order (Python dict insertion order). -/
def wordFreqOf (ws : List (List Char)) : List (List Char × ℕ) :=
  ws.foldl (fun m w => if w ∉ stopWords ∧ 2 < w.length then bumpFreq m w else m) []

/-- `sorted(word_freq.items(), key=lambda x: x[1], reverse=True)[:20]`
(Python's sort is stable). -/
def topWordsOf (freq : List (List Char × ℕ)) : List (List Char × ℕ) :=
  (freq.insertionSort fun a b => b.2 ≤ a.2).take 20

structure TextStats where
  char_count : ℕ
  word_count : ℕ
  unique_words : ℕ
  sentence_count : ℕ
  line_count : ℕ
  avg_word_length : ℚ
  avg_sentence_length : ℚ
  top_words : List (List Char × ℕ)
  lexical_diversity : ℚ
deriving DecidableEq

/-- `_analyze_text` (`src/analyzer.py` lines 188–217). -/
def analyze_text (text : List Char) : TextStats :=
  let words := findWords text
  let sentences := sentencesOf text
  let lines := linesOf text
  { char_count := text.length,
    word_count := words.length,
    unique_words := words.dedup.length,
    sentence_count := sentences.length,
    line_count := lines.length,
    avg_word_length :=
      pyRound 2 (((words.map List.length).sum : ℚ) / ((max words.length 1 : ℕ) : ℚ)),
    avg_sentence_length :=
      pyRound 2 ((words.length : ℚ) / ((max sentences.length 1 : ℕ) : ℚ)),
    top_words := topWordsOf (wordFreqOf words),
    lexical_diversity :=
      pyRound 4 ((words.dedup.length : ℚ) / ((max words.length 1 : ℕ) : ℚ)) }

/-! ## The free-text read path: `_read_txt` from `src/file_reader.py`

`result["text"] = text[:10000]` — the text handed to the analyzer is the
first 10000 characters; `raw` keeps the whole text. -/

structure TxtFileInfo where
  text : List Char
  raw : List Char
deriving DecidableEq

/-- The `text`/`raw` fields produced by `_read_txt` for file contents
`contents` (the tabular-reinterpretation attempt is irrelevant to the
text fields). -/
def read_txt (contents : List Char) : TxtFileInfo :=
  { text := contents.take 10000, raw := contents }

/-- `analyze` profiles `file_info.get("text", "")`; the character count it
reports for a free-text input with contents `contents`. -/
def txtCharCountReported (contents : List Char) : ℕ :=
  (analyze_text (read_txt contents).text).char_count

theorem txtCharCountReported_eq (contents : List Char) :
    txtCharCountReported contents = min 10000 contents.length := by
  show (contents.take 10000).length = min 10000 contents.length
  exact List.length_take _ _

/-- **C7** (counterexample to the claim as stated).  `_read_txt` stores
`text[:10000]` in the `text` field and `_analyze_text` computes
`char_count = len(text)` on that truncated text, so a 10001-character
file is reported with `char_count = 10000`, not its full length. -/
theorem c7_char_count_counterexample :
    txtCharCountReported (List.replicate 10001 'a') = 10000 ∧
    (List.replicate 10001 'a').length = 10001 ∧ (10000 : ℕ) ≠ 10001 := by
  refine ⟨?_, by rw [List.length_replicate], by norm_num⟩
  rw [txtCharCountReported_eq, List.length_replicate]
  omega

/-- **C7** (amended).  The reported `char_count` for a free-text input of
length `L` is `min 10000 L` — the length of the text truncated for
profiling, not the full length. -/
theorem c7_char_count_truncated :
    ∀ contents : List Char,
      txtCharCountReported contents = min 10000 contents.length :=
  txtCharCountReported_eq

/-! ### Lexical diversity (claim C8) -/

theorem roundHalfEven_nonneg (x : ℚ) (hx : 0 ≤ x) : 0 ≤ roundHalfEven x := by
  have h0 : (0 : ℤ) ≤ ⌊x⌋ := Int.floor_nonneg.2 hx
  simp only [roundHalfEven]
  split_ifs <;> omega

theorem roundHalfEven_le_of_le (x : ℚ) (B : ℤ) (hx : x ≤ (B : ℚ)) :
    roundHalfEven x ≤ B := by
  have hfl : ⌊x⌋ ≤ B := by
    have h := Int.floor_le_floor hx
    simpa using h
  by_cases heq : ⌊x⌋ = B
  · have hxB : x = (B : ℚ) :=
      le_antisymm hx (by rw [← heq]; exact Int.floor_le x)
    rw [hxB, roundHalfEven_intCast]
  · have hlt : ⌊x⌋ + 1 ≤ B := by omega
    simp only [roundHalfEven]
    split_ifs <;> omega

theorem pyRound_nonneg (n : ℕ) (x : ℚ) (hx : 0 ≤ x) : 0 ≤ pyRound n x := by
  rw [pyRound]
  have h := roundHalfEven_nonneg (x * 10 ^ n) (by positivity)
  positivity

theorem pyRound_le_one (n : ℕ) (x : ℚ) (hx : x ≤ 1) : pyRound n x ≤ 1 := by
  rw [pyRound]
  have h1 : x * 10 ^ n ≤ (((10 : ℤ) ^ n : ℤ) : ℚ) := by
    push_cast
    calc x * 10 ^ n ≤ 1 * 10 ^ n := by
          exact mul_le_mul_of_nonneg_right hx (by positivity)
      _ = 10 ^ n := one_mul _
  have h2 := roundHalfEven_le_of_le _ _ h1
  rw [div_le_one (by positivity)]
  exact_mod_cast h2

theorem pyRound_one_eq (n : ℕ) : pyRound n 1 = 1 := by
  have h := pyRound_intCast n 1
  simpa using h

theorem dedup_length_le {α : Type} [DecidableEq α] (l : List α) :
    l.dedup.length ≤ l.length :=
  (List.dedup_sublist l).length_le

theorem dedup_length_eq_iff {α : Type} [DecidableEq α] (l : List α) :
    l.dedup.length = l.length ↔ l.Nodup := by
  constructor
  · intro h
    have he := (List.dedup_sublist l).eq_of_length h
    rw [← he]
    exact l.nodup_dedup
  · intro h
    rw [List.dedup_eq_self.2 h]

/-- **C8** (counterexample to the claim as stated).  The claim says the
reported lexical diversity "exactly equals unique_words / word_count",
but the code reports `round(len(set(words)) / max(len(words),1), 4)`.
For the text `"aa bb aa"` the exact ratio is `2/3` while the reported
value is `0.6667`. -/
theorem c8_lexdiv_counterexample :
    (analyze_text ("aa bb aa".toList)).word_count = 3 ∧
    (analyze_text ("aa bb aa".toList)).unique_words = 2 ∧
    (analyze_text ("aa bb aa".toList)).lexical_diversity = 6667/10000 ∧
    (6667/10000 : ℚ) ≠ 2/3 := by
  refine ⟨rfl, rfl, ?_, by norm_num⟩
  show pyRound 4 (((findWords ("aa bb aa".toList)).dedup.length : ℚ) /
      ((max (findWords ("aa bb aa".toList)).length 1 : ℕ) : ℚ)) = 6667/10000
  have h2 : (findWords ("aa bb aa".toList)).dedup.length = 2 := rfl
  have h3 : (max (findWords ("aa bb aa".toList)).length 1 : ℕ) = 3 := rfl
  rw [h2, h3]
  norm_num [pyRound, roundHalfEven]

/-- **C8** (amended).  The reported lexical diversity equals
`round(unique_words / max(word_count, 1), 4)`; it is 0 when the word
count is 0, always lies in `[0,1]`, and — for a nonempty word list — the
unrounded ratio `unique_words / word_count` equals 1 iff every word is
unique, in which case the reported value is exactly 1.  (Amendments
forced by the code: the reported value carries `round(..., 4)`, and for
an empty word list the reported value is 0 even though "every word is
unique" holds vacuously.) -/
theorem c8_lexical_diversity :
    ∀ text : List Char,
      (analyze_text text).lexical_diversity =
        pyRound 4 (((analyze_text text).unique_words : ℚ) /
          ((max (analyze_text text).word_count 1 : ℕ) : ℚ)) ∧
      ((analyze_text text).word_count = 0 →
        (analyze_text text).lexical_diversity = 0) ∧
      0 ≤ (analyze_text text).lexical_diversity ∧
      (analyze_text text).lexical_diversity ≤ 1 ∧
      ((analyze_text text).word_count ≠ 0 →
        ((findWords text).Nodup → (analyze_text text).lexical_diversity = 1)) ∧
      ((analyze_text text).word_count ≠ 0 →
        (((analyze_text text).unique_words : ℚ) /
            (((analyze_text text).word_count : ℕ) : ℚ) = 1 ↔
          (findWords text).Nodup)) := by
  intro text
  set ws := findWords text with hws
  have hwc : (analyze_text text).word_count = ws.length := rfl
  have huw : (analyze_text text).unique_words = ws.dedup.length := rfl
  have hld : (analyze_text text).lexical_diversity =
      pyRound 4 ((ws.dedup.length : ℚ) / ((max ws.length 1 : ℕ) : ℚ)) := rfl
  have hle : ws.dedup.length ≤ ws.length := dedup_length_le ws
  refine ⟨rfl, ?_, ?_, ?_, ?_, ?_⟩
  · intro h0
    rw [hwc] at h0
    have hnil : ws = [] := List.length_eq_zero.1 h0
    rw [hld, hnil]
    simpa using pyRound_intCast 4 0
  · rw [hld]
    exact pyRound_nonneg _ _ (by positivity)
  · rw [hld]
    refine pyRound_le_one _ _ ?_
    rw [div_le_one (by positivity)]
    exact_mod_cast le_trans hle (Nat.le_max_left _ _)
  · intro hne hnd
    rw [hwc] at hne
    have heq : ws.dedup.length = ws.length := (dedup_length_eq_iff ws).2 hnd
    have hmax : max ws.length 1 = ws.length := Nat.max_eq_left (Nat.one_le_iff_ne_zero.2 hne)
    rw [hld, heq, hmax, div_self (by exact_mod_cast hne), pyRound_one_eq]
  · intro hne
    rw [hwc] at hne
    rw [huw, hwc]
    constructor
    · intro h1
      have hq : (ws.dedup.length : ℚ) = (ws.length : ℚ) := by
        field_simp at h1
        exact_mod_cast h1
      exact (dedup_length_eq_iff ws).1 (by exact_mod_cast hq)
    · intro hnd
      rw [(dedup_length_eq_iff ws).2 hnd]
      exact div_self (by exact_mod_cast hne)

/-- **C8** witness: on the text `"ab cd"` every word is unique and the
reported diversity is exactly 1. -/
theorem c8_lexical_diversity_witness :
    (analyze_text ("ab cd".toList)).lexical_diversity = 1 :=
  (c8_lexical_diversity ("ab cd".toList)).2.2.2.2.1 (by decide) (by decide)

/-! ## Categorical profiling: `_analyze_df` lines 117–129

```python
for col in cat_cols[:20]:  # cap at 20
    s = df[col].dropna()
    vc = s.value_counts()
    categorical[col] = {
        "count":       int(s.count()),
        "unique":      int(s.nunique()),
        "top_value":   str(vc.index[0]) if len(vc) else "",
        "top_freq":    int(vc.iloc[0]) if len(vc) else 0,
        "top_pct":     round(float(vc.iloc[0]) / len(s) * 100, 2) if len(vc) else 0,
        "value_counts": {str(k): int(v) for k, v in vc.head(10).items()},
    }
```
`value_counts` sorts descending by frequency (stable on first
occurrence). -/

/-- Frequency table of a value list in first-occurrence order. -/
def freqList (s : List (List Char)) : List (List Char × ℕ) :=
  s.foldl bumpFreq []

/-- `Series.value_counts()`: pairs (value, count) sorted by descending
count. -/
def valueCounts (s : List (List Char)) : List (List Char × ℕ) :=
  (freqList s).insertionSort fun a b => b.2 ≤ a.2

structure CatProfile where
  count : ℕ
  unique : ℕ
  top_value : List Char
  top_freq : ℕ
  top_pct : ℚ
  value_counts : List (List Char × ℕ)
deriving DecidableEq

/-- Categorical profile of one column (`col` holds the nullable cells).
The `top_*` fields are guarded by `if len(vc)`: for an empty
value-counts table the defaults `""`, `0`, `0` are produced and the
division `top_freq / len(s)` is never formed. -/
def catProfile (col : List (Option (List Char))) : CatProfile :=
  let s := col.filterMap id
  let vc := valueCounts s
  { count := s.length,
    unique := s.dedup.length,
    top_value := (match vc.head? with | some p => p.1 | none => []),
    top_freq := (match vc.head? with | some p => p.2 | none => 0),
    top_pct := (match vc.head? with
      | some p => pyRound 2 ((p.2 : ℚ) / (s.length : ℚ) * 100)
      | none => 0),
    value_counts := vc.take 10 }

/-- The categorical section: only the first 20 text/boolean columns are
profiled (`cat_cols[:20]`). -/
def categoricalSection (cols : List (List Char × List (Option (List Char)))) :
    List (List Char × CatProfile) :=
  (cols.take 20).map fun c => (c.1, catProfile c.2)

/-- The profile the code produces for a column with no non-null values:
`count = 0`, `unique = 0`, `top_value = ""`, `top_freq = 0`,
`top_pct = 0`, empty value-counts table. -/
def emptyCatProfile : CatProfile :=
  { count := 0, unique := 0, top_value := [], top_freq := 0,
    top_pct := 0, value_counts := [] }

/-- **C10**: categorical profiling is total on all-null columns.  Any of
the first 20 categorical columns whose non-null value set is empty is
profiled as `emptyCatProfile`; the `len(vc)` guard means the `top_pct`
division is never formed, so no error is raised. -/
theorem c10_catProfile_total :
    (∀ col : List (Option (List Char)), col.filterMap id = [] →
      catProfile col = emptyCatProfile) ∧
    (∀ cols : List (List Char × List (Option (List Char))),
      ∀ name col, (name, col) ∈ cols.take 20 → col.filterMap id = [] →
        (name, emptyCatProfile) ∈ categoricalSection cols) := by
  have hmain : ∀ col : List (Option (List Char)), col.filterMap id = [] →
      catProfile col = emptyCatProfile := by
    intro col h
    rw [catProfile]
    simp only [h]
    rfl
  refine ⟨hmain, ?_⟩
  intro cols name col hmem h
  rw [categoricalSection]
  refine List.mem_map.2 ⟨(name, col), hmem, ?_⟩
  rw [hmain col h]

/-- **C10** witness: a column of two nulls among the first 20 columns. -/
theorem c10_catProfile_total_witness :
    catProfile [none, none] = emptyCatProfile :=
  c10_catProfile_total.1 [none, none] rfl

/-! ## Insight generation: `_generate_insights` from `src/analyzer.py`

Insights are modelled as a datatype carrying each rule's category and
numeric payload (the f-string message rendering is float formatting,
outside the model's scope; the category and interpolated values determine
the message). -/

inductive Insight where
  | largeDataset (rows : ℕ)
  | smallSample (rows : ℕ)
  | highMissingData (pct : ℚ)
  | moderateMissingData (pct : ℚ)
  | duplicateRows (n : ℕ)
  | outliersDetected (col : List Char) (pct : ℚ)
  | skewedDistribution (col : List Char) (sk : ℚ)
  | strongCorrelation (col1 col2 : List Char) (r : ℚ)
  | dominantCategory (col : List Char) (topVal : List Char) (pct : ℚ)
  | lowLexicalDiversity (d : ℚ)
  | documentSize (words sentences : ℕ)
deriving DecidableEq

/-- The fields of a numeric column profile read by the insight rules. -/
structure NumProfileLite where
  outlier_pct : ℚ
  skewness : ℚ
deriving DecidableEq

/-- A correlation pair as stored in `correlations["top_pairs"]` (the
`r` values there are already rounded to 4 decimals, hence exact decimal
numbers, modelled as rationals). -/
structure PairLite where
  col1 : List Char
  col2 : List Char
  r : ℚ
deriving DecidableEq

/-- The slice of the analysis record that `_generate_insights` reads.
`rows`, `missing_pct` and `duplicate_rows` default to 0 when the overview
is empty (`ov.get(..., 0)`); an absent/empty `text_stats` dict is
`none` (`if txt:`). -/
structure AnalysisRec where
  rows : ℕ
  missing_pct : ℚ
  duplicate_rows : ℕ
  numeric : List (List Char × NumProfileLite)
  categorical : List (List Char × CatProfile)
  top_pairs : List PairLite
  text_stats : Option TextStats

/-- Rule 1 — dataset size: `if rows: if rows > 100_000 ... elif rows < 30`. -/
def ruleRowCount (rows : ℕ) : List Insight :=
  if rows ≠ 0 then
    if rows > 100000 then [.largeDataset rows]
    else if rows < 30 then [.smallSample rows]
    else []
  else []

/-- Rule 2 — missing data: `if miss_pct > 20 ... elif miss_pct > 5`. -/
def ruleMissing (pct : ℚ) : List Insight :=
  if pct > 20 then [.highMissingData pct]
  else if pct > 5 then [.moderateMissingData pct]
  else []

/-- Rule 3 — duplicate rows. -/
def ruleDuplicates (n : ℕ) : List Insight :=
  if n > 0 then [.duplicateRows n] else []

/-- Rule 4 — per-column outlier percentage over 10%. -/
def ruleOutliers (num : List (List Char × NumProfileLite)) : List Insight :=
  num.filterMap fun p =>
    if p.2.outlier_pct > 10 then some (.outliersDetected p.1 p.2.outlier_pct)
    else none

/-- Rule 5 — per-column |skewness| over 2 (direction, in the message,
is derived from the sign of the stored skewness). -/
def ruleSkew (num : List (List Char × NumProfileLite)) : List Insight :=
  num.filterMap fun p =>
    if |p.2.skewness| > 2 then some (.skewedDistribution p.1 p.2.skewness)
    else none

/-- Rule 6 — top 3 correlation pairs with |r| ≥ 0.8. -/
def ruleCorr (pairs : List PairLite) : List Insight :=
  (pairs.take 3).filterMap fun p =>
    if |p.r| ≥ 8/10 then some (.strongCorrelation p.col1 p.col2 p.r)
    else none

/-- Rule 7 — dominant categories (top_pct > 70%). -/
def ruleDominant (cat : List (List Char × CatProfile)) : List Insight :=
  cat.filterMap fun p =>
    if p.2.top_pct > 70 then some (.dominantCategory p.1 p.2.top_value p.2.top_pct)
    else none

/-- Rule 8 — text insights (`if txt:`). -/
def ruleText (txt : Option TextStats) : List Insight :=
  match txt with
  | none => []
  | some t =>
    (if t.lexical_diversity < 3/10 then [.lowLexicalDiversity t.lexical_diversity]
     else []) ++ [.documentSize t.word_count t.sentence_count]

/-- `_generate_insights` (`src/analyzer.py` lines 224–285): the eight
rules evaluated in their fixed order, concatenated, capped at 12. -/
def generate_insights (a : AnalysisRec) : List Insight :=
  (ruleRowCount a.rows ++ ruleMissing a.missing_pct ++
   ruleDuplicates a.duplicate_rows ++ ruleOutliers a.numeric ++
   ruleSkew a.numeric ++ ruleCorr a.top_pairs ++
   ruleDominant a.categorical ++ ruleText a.text_stats).take 12

/-- **C3**: for every analysis record the insight list has length at most
12 and equals the first 12 insights produced by the eight rules evaluated
in their fixed order (row count, missing ratio, duplicates, per-column
outliers, per-column skewness, top-3 strong correlations, dominant
categories, text) — rule-evaluation order, never a severity sort. -/
theorem c3_insights_capped :
    ∀ a : AnalysisRec,
      (generate_insights a).length ≤ 12 ∧
      generate_insights a =
        ([ruleRowCount a.rows, ruleMissing a.missing_pct,
          ruleDuplicates a.duplicate_rows, ruleOutliers a.numeric,
          ruleSkew a.numeric, ruleCorr a.top_pairs,
          ruleDominant a.categorical, ruleText a.text_stats].flatten).take 12 := by
  intro a
  constructor
  · exact List.length_take_le 12 _
  · rw [generate_insights]
    simp [List.flatten]

/-- **C4** (counterexample to the claim as stated).  The claim places
5% inside the moderate band, but the code's `elif miss_pct > 5` is
strict: at exactly 5% no missing-data insight is emitted.  (A 20-cell
table with exactly one missing cell reports `missing_pct = 5.0`.) -/
theorem c4_missing_band_counterexample :
    ruleMissing 5 = [] ∧ (5 : ℚ) ≤ 5 ∧ (5 : ℚ) ≤ 20 := by
  refine ⟨?_, le_refl _, by norm_num⟩
  rw [ruleMissing, if_neg (by norm_num), if_neg (by norm_num)]

/-- **C4** (amended).  The missing-data rule emits the high insight
exactly when `missing_pct > 20` and the moderate insight exactly when
`5 < missing_pct ≤ 20` (the lower bound is strict, not inclusive);
otherwise no missing-data insight is emitted. -/
theorem c4_missing_band :
    ∀ pct : ℚ,
      (Insight.highMissingData pct ∈ ruleMissing pct ↔ 20 < pct) ∧
      (Insight.moderateMissingData pct ∈ ruleMissing pct ↔ 5 < pct ∧ pct ≤ 20) ∧
      (pct ≤ 5 → ruleMissing pct = []) := by
  intro pct
  rw [ruleMissing]
  split_ifs with h1 h2
  · refine ⟨⟨fun _ => h1, fun _ => List.mem_singleton.2 rfl⟩, ?_, ?_⟩
    · constructor
      · intro hm
        exact absurd (List.mem_singleton.1 hm) (by simp)
      · rintro ⟨-, hle⟩
        exact absurd h1 (not_lt.2 hle)
    · intro h
      exact absurd h1 (by simp; linarith)
  · refine ⟨?_, ⟨fun _ => ⟨h2, not_lt.1 h1⟩, fun _ => List.mem_singleton.2 rfl⟩, ?_⟩
    · constructor
      · intro hm
        exact absurd (List.mem_singleton.1 hm) (by simp)
      · intro hgt
        exact absurd hgt h1
    · intro h
      exact absurd h2 (not_lt.2 h)
  · refine ⟨?_, ?_, fun _ => rfl⟩
    · exact ⟨fun hm => absurd hm (List.not_mem_nil _), fun hgt => absurd hgt h1⟩
    · exact ⟨fun hm => absurd hm (List.not_mem_nil _), fun h => absurd h.1 h2⟩

/-- **C9** (counterexample to the claim as stated).  The claim says the
small-sample caution fires exactly when `rows < 30`, "including the
boundary case of a table with zero rows", but the code's `if rows:`
truthiness guard makes 0 rows emit nothing. -/
theorem c9_row_count_counterexample :
    ruleRowCount 0 = [] ∧ (0 : ℕ) < 30 := by
  exact ⟨rfl, by norm_num⟩

/-- **C9** (amended).  The row-count rule emits the large-dataset note
exactly when `rows > 100000` and the small-sample caution exactly when
`0 < rows < 30`; at `rows = 0` nothing is emitted (`if rows:`).  (A
zero-row table never reaches the rule with a populated overview anyway:
`analyze` skips `_analyze_df` when `df.empty`.) -/
theorem c9_row_count_rule :
    ∀ rows : ℕ,
      (Insight.largeDataset rows ∈ ruleRowCount rows ↔ 100000 < rows) ∧
      (Insight.smallSample rows ∈ ruleRowCount rows ↔ 0 < rows ∧ rows < 30) := by
  intro rows
  rw [ruleRowCount]
  split_ifs with h0 h1 h2
  · refine ⟨⟨fun _ => h1, fun _ => List.mem_singleton.2 rfl⟩, ?_⟩
    constructor
    · intro hm
      exact absurd (List.mem_singleton.1 hm) (by simp)
    · rintro ⟨-, hlt⟩
      omega
  · refine ⟨?_, ⟨fun _ => ⟨Nat.pos_of_ne_zero h0, h2⟩, fun _ => List.mem_singleton.2 rfl⟩⟩
    constructor
    · intro hm
      exact absurd (List.mem_singleton.1 hm) (by simp)
    · intro hgt
      exact absurd hgt h1
  · exact ⟨⟨fun hm => absurd hm (List.not_mem_nil _), fun hgt => absurd hgt h1⟩,
      ⟨fun hm => absurd hm (List.not_mem_nil _), fun h => absurd h.2 h2⟩⟩
  · have h0' : rows = 0 := by omega
    exact ⟨⟨fun hm => absurd hm (List.not_mem_nil _), fun hgt => by omega⟩,
      ⟨fun hm => absurd hm (List.not_mem_nil _), fun h => by omega⟩⟩

/-! ## CSV reading with encoding fallback: `_read_csv` from
`src/file_reader.py`

```python
def _read_csv(path):
    for enc in ("utf-8", "latin-1", "cp1252"):
        try:
            df = pd.read_csv(path, encoding=enc, on_bad_lines="skip")
            df = _clean_df(df)
            return {"type": "csv", "df": df, "raw": df}
        except Exception:
            continue
    raise ValueError("Could not decode CSV with any supported encoding.")
```
An attempt is abstracted by two predicates on the encoding: whether the
file's bytes decode under it, and whether the decoded text then parses as
CSV (pandas can raise, e.g. `EmptyDataError`, after a successful
decode — the `except` catches both kinds of failure). -/

def csvEncodings : List String := ["utf-8", "latin-1", "cp1252"]

/-- One loop-body attempt succeeds iff decoding and subsequent parsing
both succeed. -/
def attemptOk (decodes parses : String → Bool) (enc : String) : Bool :=
  decodes enc && parses enc

def decodeErrMsg : String := "Could not decode CSV with any supported encoding."

/-- `_read_csv` (`src/file_reader.py` lines 46–55) as a function of which
attempts succeed: the first successful attempt's encoding wins, otherwise
the decode-failure `ValueError` is raised. -/
def read_csv (decodes parses : String → Bool) : Except String String :=
  match csvEncodings.find? (attemptOk decodes parses) with
  | some enc => .ok enc
  | none => .error decodeErrMsg

/-- **C5** (counterexample to the claim as stated).  An empty CSV file
decodes without error under UTF-8 (and every other configured encoding),
yet `pd.read_csv` raises `EmptyDataError` on it for every encoding, so
`_read_csv` raises the decode-failure error even though the first
configured encoding decoded the bytes without error: `decodes ≡ true`,
`parses ≡ false`. -/
theorem c5_encoding_counterexample :
    (fun _ => true : String → Bool) "utf-8" = true ∧
    "utf-8" ∈ csvEncodings ∧
    read_csv (fun _ => true) (fun _ => false) = .error decodeErrMsg := by
  refine ⟨rfl, ?_, rfl⟩
  rw [csvEncodings]
  exact List.mem_cons_self _ _

/-- **C5** (amended).  The read succeeds with the first encoding in
(UTF-8, Latin-1, cp1252) whose *attempt* — decoding and the subsequent
CSV parse — succeeds; the decode-failure error is raised exactly when
every attempt fails, whether from decoding or from parsing.  (The claim's
version, conditioned on decoding alone, fails because the `except` also
catches parse errors after a successful decode.) -/
theorem c5_encoding_fallback :
    ∀ decodes parses : String → Bool,
      (read_csv decodes parses = .ok "utf-8" ↔
        attemptOk decodes parses "utf-8" = true) ∧
      (read_csv decodes parses = .ok "latin-1" ↔
        attemptOk decodes parses "utf-8" = false ∧
        attemptOk decodes parses "latin-1" = true) ∧
      (read_csv decodes parses = .ok "cp1252" ↔
        attemptOk decodes parses "utf-8" = false ∧
        attemptOk decodes parses "latin-1" = false ∧
        attemptOk decodes parses "cp1252" = true) ∧
      (read_csv decodes parses = .error decodeErrMsg ↔
        ∀ enc ∈ csvEncodings, attemptOk decodes parses enc = false) := by
  intro decodes parses
  cases h1 : attemptOk decodes parses "utf-8" <;>
    cases h2 : attemptOk decodes parses "latin-1" <;>
      cases h3 : attemptOk decodes parses "cp1252" <;>
        simp [read_csv, csvEncodings, List.find?, h1, h2, h3, decodeErrMsg]

/-! ## Correlations: `_analyze_df` lines 131–147

```python
correlations = {}
if len(num_cols) >= 2:
    corr_df = df[num_cols].corr()
    pairs = []
    for i, c1 in enumerate(num_cols):
        for c2 in num_cols[i+1:]:
            val = corr_df.loc[c1, c2]
            if not math.isnan(val):
                pairs.append({"col1": c1, "col2": c2, "r": round(float(val), 4)})
    pairs.sort(key=lambda x: abs(x["r"]), reverse=True)
    correlations = {
        "matrix": {c: {c2: round(float(v), 3) for c2, v in corr_df[c].items()}
                   for c in corr_df.columns},
        "top_pairs": pairs[:10],
    }
```
Pearson correlation needs a real square root, so this part of the model
lives in `ℝ` and is `noncomputable`; the spec treats Pearson correlation
as a correct external primitive, and this is its textbook definition.
Columns are positional (indices into the numeric-column list). -/

/-- Pairwise-complete observations (`DataFrame.corr` drops rows with a
null in either column, pairwise). -/
def pairedObs (x y : List (Option ℚ)) : List (ℚ × ℚ) :=
  (x.zip y).filterMap fun p =>
    match p with
    | (some a, some b) => some (a, b)
    | _ => none

/-- Population variance (zero exactly when the observations are constant
or fewer than two — the situations where pandas reports NaN). -/
def variance0 (l : List ℚ) : ℚ :=
  ((l.map fun a => (a - seriesMean l) ^ 2).sum) / l.length

def covar0 (ps : List (ℚ × ℚ)) : ℚ :=
  ((ps.map fun p => (p.1 - seriesMean (ps.map Prod.fst)) *
    (p.2 - seriesMean (ps.map Prod.snd))).sum) / ps.length

/-- Pearson correlation of two columns, `none` = NaN (zero variance on
either side, which covers empty and single-observation cases). -/
noncomputable def pearson (x y : List (Option ℚ)) : Option ℝ :=
  let ps := pairedObs x y
  if variance0 (ps.map Prod.fst) = 0 ∨ variance0 (ps.map Prod.snd) = 0 then none
  else some (((covar0 ps : ℚ) : ℝ) /
    (Real.sqrt ((variance0 (ps.map Prod.fst) : ℚ) : ℝ) *
     Real.sqrt ((variance0 (ps.map Prod.snd) : ℚ) : ℝ)))

/-- `roundHalfEven` over the reals (for the reported float roundings). -/
noncomputable def roundHalfEvenR (x : ℝ) : ℤ :=
  if x - ⌊x⌋ < 1/2 then ⌊x⌋
  else if 1/2 < x - ⌊x⌋ then ⌊x⌋ + 1
  else if Even ⌊x⌋ then ⌊x⌋ else ⌊x⌋ + 1

/-- `round(x, n)` over the reals. -/
noncomputable def pyRoundR (n : ℕ) (x : ℝ) : ℝ :=
  ((roundHalfEvenR (x * 10 ^ n) : ℤ) : ℝ) / 10 ^ n

theorem roundHalfEvenR_intCast (z : ℤ) : roundHalfEvenR (z : ℝ) = z := by
  rw [roundHalfEvenR]
  simp

theorem pyRoundR_one (n : ℕ) : pyRoundR n 1 = 1 := by
  have h : (1 : ℝ) * 10 ^ n = (((10 : ℤ) ^ n : ℤ) : ℝ) := by push_cast; ring
  rw [pyRoundR, h, roundHalfEvenR_intCast]
  push_cast
  field_simp

/-- The `matrix` entry: every pairwise Pearson value rounded to
3 decimals (`None` = NaN stays NaN). -/
noncomputable def corrMatrix (cols : List (List (Option ℚ))) :
    List (List (Option ℝ)) :=
  cols.map fun ci => cols.map fun cj => (pearson ci cj).map (pyRoundR 3)

structure TopPair where
  col1 : ℕ
  col2 : ℕ
  r : ℝ

/-- The generation order of the nested pair loops: `i` ascending, then
`j` from `i+1` up. -/
def orderedIdxPairs (n : ℕ) : List (ℕ × ℕ) :=
  ((List.range n).map fun i =>
    ((List.range n).drop (i + 1)).map fun j => (i, j)).flatten

/-- The `pairs` list before sorting: all distinct unordered column pairs
with a defined (non-NaN) correlation, `r` rounded to 4 decimals, in
generation order. -/
noncomputable def corrPairList (cols : List (List (Option ℚ))) : List TopPair :=
  (orderedIdxPairs cols.length).filterMap fun ij =>
    (pearson (cols.getD ij.1 []) (cols.getD ij.2 [])).map fun r =>
      { col1 := ij.1, col2 := ij.2, r := pyRoundR 4 r }

/-- `pairs.sort(key=lambda x: abs(x["r"]), reverse=True)` — Python's sort
is stable, which insertion sort with the relation `|b.r| ≤ |a.r|`
reproduces exactly. -/
noncomputable def sortedPairs (cols : List (List (Option ℚ))) : List TopPair :=
  (corrPairList cols).insertionSort fun a b => |b.r| ≤ |a.r|

structure Correlations where
  matrix : List (List (Option ℝ))
  top_pairs : List TopPair

/-- The `correlations` section: populated only with ≥ 2 numeric columns
(`none` models the empty dict). -/
noncomputable def correlationsSection (cols : List (List (Option ℚ))) :
    Option Correlations :=
  if 2 ≤ cols.length then
    some { matrix := corrMatrix cols, top_pairs := (sortedPairs cols).take 10 }
  else none

theorem zip_self {α : Type} (l : List α) : l.zip l = l.map fun a => (a, a) := by
  induction l with
  | nil => rfl
  | cons a t ih => simp [ih]

theorem pairedObs_self (x : List (Option ℚ)) :
    pairedObs x x = (x.filterMap id).map fun a => (a, a) := by
  rw [pairedObs, zip_self]
  induction x with
  | nil => rfl
  | cons c t ih => cases c <;> simp [ih]

theorem variance0_nonneg (l : List ℚ) : 0 ≤ variance0 l := by
  rw [variance0]
  apply div_nonneg _ (Nat.cast_nonneg _)
  apply List.sum_nonneg
  intro x hx
  obtain ⟨a, _, rfl⟩ := List.mem_map.1 hx
  positivity

theorem covar0_diag (l : List ℚ) :
    covar0 (l.map fun a => (a, a)) = variance0 l := by
  rw [covar0, variance0]
  have h1 : ((l.map fun a => (a, a)).map Prod.fst) = l := by
    rw [List.map_map]
    exact List.map_id' l
  have h2 : ((l.map fun a => (a, a)).map Prod.snd) = l := by
    rw [List.map_map]
    exact List.map_id' l
  rw [h1, h2, List.length_map, List.map_map]
  congr 1
  refine congrArg List.sum (List.map_congr_left ?_)
  intro a _
  show (a - seriesMean l) * (a - seriesMean l) = (a - seriesMean l) ^ 2
  ring

/-- On the diagonal, a column with nonzero variance of its non-null
values has Pearson correlation exactly 1. -/
theorem pearson_self (x : List (Option ℚ))
    (hv : variance0 (x.filterMap id) ≠ 0) : pearson x x = some 1 := by
  have hps : pairedObs x x = (x.filterMap id).map fun a => (a, a) :=
    pairedObs_self x
  have h1 : (pairedObs x x).map Prod.fst = x.filterMap id := by
    rw [hps, List.map_map]
    exact List.map_id' _
  have h2 : (pairedObs x x).map Prod.snd = x.filterMap id := by
    rw [hps, List.map_map]
    exact List.map_id' _
  have hcov : covar0 (pairedObs x x) = variance0 (x.filterMap id) := by
    rw [hps, covar0_diag]
  rw [pearson]
  simp only [h1, h2, hcov]
  rw [if_neg (by simp [hv])]
  congr 1
  have hnn : (0 : ℝ) ≤ ((variance0 (x.filterMap id) : ℚ) : ℝ) := by
    exact_mod_cast variance0_nonneg _
  rw [Real.mul_self_sqrt hnn]
  rw [div_self]
  exact_mod_cast hv

theorem getD_map {α β : Type} (f : α → β) (l : List α) (i : ℕ) (d : β)
    (h : i < l.length) : (l.map f).getD i d = f (l[i]) := by
  rw [List.getD_eq_getElem _ _ (by simpa using h), List.getElem_map]

theorem mem_orderedIdxPairs {n : ℕ} {ij : ℕ × ℕ}
    (h : ij ∈ orderedIdxPairs n) : ij.1 < ij.2 ∧ ij.2 < n := by
  rw [orderedIdxPairs] at h
  obtain ⟨l, hl, hal⟩ := List.mem_flatten.1 h
  obtain ⟨i, _, rfl⟩ := List.mem_map.1 hl
  obtain ⟨j, hj, rfl⟩ := List.mem_map.1 hal
  constructor
  · obtain ⟨k, hk, hkj⟩ := List.mem_iff_getElem.1 hj
    rw [List.getElem_drop, List.getElem_range] at hkj
    omega
  · exact List.mem_range.1 (List.mem_of_mem_drop hj)

/-- **C6**: with at least two numeric columns the correlation section
holds (a) the full matrix with each defined entry rounded to 3 decimals
and diagonal entry exactly 1 for every column with nonzero variance of
its non-null values, and (b) the pair list: all distinct unordered
column pairs with a defined (non-NaN) Pearson r in generation order,
each r rounded to 4 decimals, stably sorted by descending |r|
(first-encountered-first on ties) and truncated to the top 10; with
fewer than two numeric columns no correlation output is produced. -/
theorem c6_correlations :
    ∀ cols : List (List (Option ℚ)),
      (correlationsSection cols = none ↔ cols.length < 2) ∧
      (2 ≤ cols.length →
        ∃ sec, correlationsSection cols = some sec ∧
          sec.matrix = corrMatrix cols ∧
          sec.top_pairs = (sortedPairs cols).take 10 ∧
          sec.top_pairs.length ≤ 10 ∧
          List.Sorted (fun a b : TopPair => |b.r| ≤ |a.r|) (sortedPairs cols) ∧
          (sortedPairs cols).Perm (corrPairList cols) ∧
          (∀ a b : TopPair, List.Sublist [a, b] (corrPairList cols) →
            |b.r| ≤ |a.r| → List.Sublist [a, b] (sortedPairs cols)) ∧
          (∀ p ∈ corrPairList cols, p.col1 < p.col2 ∧ p.col2 < cols.length ∧
            ∃ r, pearson (cols.getD p.col1 []) (cols.getD p.col2 []) = some r ∧
              p.r = pyRoundR 4 r) ∧
          (∀ i j, i < cols.length → j < cols.length →
            ((corrMatrix cols).getD i []).getD j none =
              (pearson (cols.getD i []) (cols.getD j [])).map (pyRoundR 3)) ∧
          (∀ i, i < cols.length →
            variance0 ((cols.getD i []).filterMap id) ≠ 0 →
            ((corrMatrix cols).getD i []).getD i none = some 1)) := by
  intro cols
  constructor
  · rw [correlationsSection]
    split_ifs with h <;> simp <;> omega
  · intro h2
    haveI hTot : IsTotal TopPair (fun a b : TopPair => |b.r| ≤ |a.r|) :=
      ⟨fun a b => le_total |b.r| |a.r|⟩
    haveI hTrans : IsTrans TopPair (fun a b : TopPair => |b.r| ≤ |a.r|) :=
      ⟨fun _ _ _ hab hbc => le_trans hbc hab⟩
    have hmat : ∀ i j, i < cols.length → j < cols.length →
        ((corrMatrix cols).getD i []).getD j none =
          (pearson (cols.getD i []) (cols.getD j [])).map (pyRoundR 3) := by
      intro i j hi hj
      rw [corrMatrix, getD_map _ _ _ _ hi, getD_map _ _ _ _ hj,
        List.getD_eq_getElem _ _ hi, List.getD_eq_getElem _ _ hj]
    refine ⟨{ matrix := corrMatrix cols, top_pairs := (sortedPairs cols).take 10 },
      by rw [correlationsSection, if_pos h2], rfl, rfl,
      List.length_take_le _ _, ?_, ?_, ?_, ?_, hmat, ?_⟩
    · exact List.sorted_insertionSort _ _
    · exact List.perm_insertionSort _ _
    · intro a b hab hr
      exact List.pair_sublist_insertionSort hr hab
    · intro p hp
      rw [corrPairList] at hp
      obtain ⟨ij, hij, hmap⟩ := List.mem_filterMap.1 hp
      obtain ⟨r, hr, rfl⟩ := Option.map_eq_some'.1 hmap
      obtain ⟨hlt, hn⟩ := mem_orderedIdxPairs hij
      exact ⟨hlt, hn, r, hr, rfl⟩
    · intro i hi hv
      rw [hmat i i hi hi, pearson_self _ hv, Option.map_some', pyRoundR_one]

/-- **C6** witness: two concrete perfectly correlated columns; the
diagonal matrix entry for column 0 is exactly 1 and the section is
populated. -/
theorem c6_correlations_witness :
    ((corrMatrix [[some 1, some 2], [some 1, some 3]]).getD 0 []).getD 0 none
      = some 1 := by
  have hv : variance0 ((([[some 1, some 2], [some 1, some 3]] :
      List (List (Option ℚ))).getD 0 []).filterMap id) ≠ 0 := by
    have h : (([[some 1, some 2], [some 1, some 3]] :
        List (List (Option ℚ))).getD 0 []).filterMap id = [1, 2] := rfl
    rw [h, variance0, seriesMean]
    norm_num
  exact ((c6_correlations [[some 1, some 2], [some 1, some 3]]).2
    (by norm_num)).choose_spec.2.2.2.2.2.2.2.2.2 0 (by norm_num) hv

end AutoReport
